import Mathlib

/-!
Verification of the water-monitoring data pipeline
(data_processing.py, get_data.py, main.py).

The embedding models pandas DataFrames as Lean lists of typed rows.
Timestamps are calendar structures; bucket indices for resampling are
integers computed from the proleptic Gregorian day number (days since
1970-01-01, the pandas epoch).  Rational numbers stand for the float
column values, with rounding modelled as exact decimal round-half-even
(the numpy rounding rule used by pandas round).
-/

/-- A parsed timestamp, as produced by pd.to_datetime: a timezone-naive
calendar point.  Fields are plain integers; only valid calendar values
arise from parsing, and the bucket arithmetic below reads them as such. -/
structure Timestamp where
  year : Int
  month : Int
  day : Int
  hour : Int
  minute : Int
  second : Int
deriving DecidableEq, Repr

/-- Day number of a civil date counted from 1970-01-01 (Howard Hinnant
days_from_civil algorithm, the same day numbering pandas uses). -/
def daysFromCivil (y m d : Int) : Int :=
  let y2 : Int := if m ≤ 2 then y - 1 else y
  let era : Int := y2.fdiv 400
  let yoe : Int := y2 - era * 400
  let mp : Int := (m + 9).emod 12
  let doy : Int := (153 * mp + 2).fdiv 5 + d - 1
  let doe : Int := yoe * 365 + yoe.fdiv 4 - yoe.fdiv 100 + doy
  era * 146097 + doe - 719468

/-- Calendar-day bucket index of a timestamp (resample D, and the value
compared by the dt.date range filters). -/
def dayIdx (t : Timestamp) : Int :=
  daysFromCivil t.year t.month t.day

/-- Calendar-hour bucket index (resample H / h floors to the hour). -/
def hourIdx (t : Timestamp) : Int :=
  dayIdx t * 24 + t.hour

/-- Week-ending-Monday bucket index (resample W-Mon): the day number of
the Monday closing the week that contains the timestamp.  Day 4 =
1970-01-05 is a Monday, so Mondays are the days congruent to 4 mod 7;
a Monday belongs to its own label day. -/
def weekIdx (t : Timestamp) : Int :=
  dayIdx t + (4 - dayIdx t).emod 7

/-- Calendar-month bucket index (resample ME). -/
def monthIdx (t : Timestamp) : Int :=
  t.year * 12 + t.month

/-- One raw record from the external API, after the pd.to_numeric
coercion of the four tracked columns: a malformed or absent numeric
value is already a missing marker (none), mirroring errors=coerce. -/
structure RawRecord where
  timestamp : String
  FlowInd : Option ℚ
  TDS : Option ℚ
  pH : Option ℚ
  Depth : Option ℚ
deriving DecidableEq, Repr

/-- One cleaned row of the canonical table returned by preprocess_data. -/
structure Reading where
  timestamp : Timestamp
  FlowInd : ℚ
  TDS : ℚ
  pH : ℚ
  Depth : ℚ
deriving DecidableEq, Repr

/-- Floor of a rational, computed from its normalised fraction. -/
def qfloor (q : ℚ) : Int :=
  q.num.fdiv q.den

/-- Round a rational to the nearest integer, ties to even: the numpy
rounding rule behind Series.round. -/
def rhe (q : ℚ) : Int :=
  if q - (qfloor q : ℚ) < 1/2 then qfloor q
  else if 1/2 < q - (qfloor q : ℚ) then qfloor q + 1
  else if (qfloor q).emod 2 = 0 then qfloor q else qfloor q + 1

/-- Round to 2 decimal places (Series.round 2). -/
def round2 (q : ℚ) : ℚ :=
  ((rhe (q * 100) : ℚ)) / 100

/-- The two pH range-validation assignments of preprocess_data: values
below 0 and then values above 14 are reset to neutral 7.0. -/
def clampPH (x : ℚ) : ℚ :=
  if x < 0 then 7 else if x > 14 then 7 else x

/-- The negative-value reset of preprocess_data for TDS, Depth, FlowInd. -/
def clamp0 (x : ℚ) : ℚ :=
  if x < 0 then 0 else x

/-- Forward-fill worker: carries the most recent non-missing value. -/
def ffillGo : Option ℚ → List (Option ℚ) → List (Option ℚ)
  | _, [] => []
  | last, none :: xs => last :: ffillGo last xs
  | _, some v :: xs => some v :: ffillGo (some v) xs

/-- Series.ffill: each missing entry takes the nearest earlier value. -/
def ffill (l : List (Option ℚ)) : List (Option ℚ) :=
  ffillGo none l

/-- Series.bfill: each missing entry takes the nearest later value. -/
def bfill (l : List (Option ℚ)) : List (Option ℚ) :=
  (ffillGo none l.reverse).reverse

/-- Series.fillna 0 after the two fills: any still-missing entry is 0. -/
def fill0 (l : List (Option ℚ)) : List ℚ :=
  l.map (fun x => x.getD 0)

/-- The null-repair chain applied to every numeric column in
preprocess_data lines 48-51: ffill, then bfill, then fillna 0. -/
def cleanCol (l : List (Option ℚ)) : List ℚ :=
  fill0 (bfill (ffill l))

/-- TDS column finalisation: fill chain, round to nearest integer
(line 54), then reset negatives to 0 (line 62). -/
def tdsFinal (l : List (Option ℚ)) : List ℚ :=
  (cleanCol l).map (fun x => clamp0 ((rhe x : ℚ)))

/-- pH column finalisation: fill chain, round to 2 decimals (line 56),
then reset out-of-range values to 7.0 (lines 60-61). -/
def phFinal (l : List (Option ℚ)) : List ℚ :=
  (cleanCol l).map (fun x => clampPH (round2 x))

/-- Depth column finalisation: fill chain, round to 2 decimals, reset
negatives to 0 (lines 55 and 63). -/
def depthFinal (l : List (Option ℚ)) : List ℚ :=
  (cleanCol l).map (fun x => clamp0 (round2 x))

/-- FlowInd column finalisation: fill chain, round to 2 decimals, reset
negatives to 0 (lines 57 and 64). -/
def flowFinal (l : List (Option ℚ)) : List ℚ :=
  (cleanCol l).map (fun x => clamp0 (round2 x))

/-- Reassemble the per-column results into rows (the DataFrame keeps the
columns aligned by position throughout the column-wise operations). -/
def mkReadings : List Timestamp → List ℚ → List ℚ → List ℚ → List ℚ → List Reading
  | t :: ts, f :: fs, td :: tds, p :: ps, d :: ds =>
      ⟨t, f, td, p, d⟩ :: mkReadings ts fs tds ps ds
  | _, _, _, _, _ => []

/-- The rows surviving the timestamp parse: pd.to_datetime with
errors=coerce followed by dropna on timestamp (lines 29-32) keeps, in
order, exactly the records whose timestamp parses, paired with their
parsed timestamp. -/
def parsedRows (parseTs : String → Option Timestamp) (data : List RawRecord) :
    List (Timestamp × RawRecord) :=
  data.filterMap (fun a => (parseTs a.timestamp).map (fun ts => (ts, a)))

/-- The column-wise cleaning body of preprocess_data (lines 34-64)
applied to the timestamp-valid rows: per-column fill chain, rounding
and range validation, reassembled into rows. -/
def cleanTable (rows : List (Timestamp × RawRecord)) : List Reading :=
  mkReadings (rows.map (fun x => x.1))
    (flowFinal (rows.map (fun x => x.2.FlowInd)))
    (tdsFinal (rows.map (fun x => x.2.TDS)))
    (phFinal (rows.map (fun x => x.2.pH)))
    (depthFinal (rows.map (fun x => x.2.Depth)))

/-- preprocess_data (data_processing.py lines 15-77).  The fetch result
is the data argument: a fetch failure or empty payload is the empty
list, failing the `if not data` check and yielding None.  The parseTs
argument is pd.to_datetime with the chosen format string: rows whose
timestamp fails to parse are dropped (lines 29-32) before the
column-wise fill, round and range-validation steps. -/
def preprocess_data (parseTs : String → Option Timestamp) (data : List RawRecord) :
    Option (List Reading) :=
  if data = [] then none
  else some (cleanTable (parsedRows parseTs data))

/-- The exception a query operation raises when it subscripts the None
returned by a failed preprocess_data (a Python TypeError). -/
inductive PyError where
  | typeError
deriving DecidableEq, Repr

/-- The TDS-then-pH nonzero row filter, exactly the two successive
boolean-mask subscripts used by filter_data_monthly (lines 143-144) and
the effective filter_data_hourly (lines 152-153). -/
def zeroFilter (df : List Reading) : List Reading :=
  (df.filter (fun r => decide (r.TDS ≠ 0))).filter (fun r => decide (r.pH ≠ 0))

/-- The strictly-positive row filter of the first, shadowed
filter_data_hourly definition (line 88). -/
def posFilter (df : List Reading) : List Reading :=
  df.filter (fun r => decide (0 < r.TDS) && decide (0 < r.pH))

/-- The inclusive calendar-date range mask used by all ranged queries:
from_date.date() <= row date <= to_date.date(), comparing dates only.
The bounds are day indices of the already-parsed from and to dates. -/
def rangeFilter (f t : Int) (df : List Reading) : List Reading :=
  df.filter (fun r => decide (f ≤ dayIdx r.timestamp) && decide (dayIdx r.timestamp ≤ t))

/-- Mean aggregation of a bucket: sum over count, missing on an empty
bucket (pandas mean of an empty group is NaN). -/
def meanQ (xs : List ℚ) : Option ℚ :=
  if xs.isEmpty then none else some (xs.sum / (xs.length : ℚ))

/-- Minimum of a list of integers below a seed. -/
def listMin (a : Int) (l : List Int) : Int :=
  l.foldl min a

/-- Maximum of a list of integers above a seed. -/
def listMax (a : Int) (l : List Int) : Int :=
  l.foldl max a

/-- The bucket labels a resample produces: every index from the smallest
to the largest bucket of the data, gap buckets included (pandas emits a
row for every period in the span, with NaN aggregates on empty ones);
an empty frame resamples to an empty frame. -/
def keysOf (B : Reading → Int) : List Reading → List Int
  | [] => []
  | r :: rs =>
      let lo := listMin (B r) (rs.map B)
      let hi := listMax (B r) (rs.map B)
      (List.range (hi - lo + 1).toNat).map (fun i : Nat => lo + (i : Int))

/-- The rows falling in bucket k. -/
def bucketOf (B : Reading → Int) (k : Int) (df : List Reading) : List Reading :=
  df.filter (fun r => decide (B r = k))

/-- An aggregated bucket row whose FlowInd and Depth are sums and whose
TDS and pH are means (the weekly, monthly and effective hourly shape).
Sum of an empty group is 0 under pandas agg, mean is missing. -/
structure SumRow where
  ts : Int
  FlowInd : ℚ
  Depth : ℚ
  TDS : Option ℚ
  pH : Option ℚ
deriving DecidableEq, Repr

/-- An aggregated bucket row with all four columns reduced by mean (the
daily output shape, and the shadowed hourly definition). -/
structure MeanRow where
  ts : Int
  FlowInd : Option ℚ
  Depth : Option ℚ
  TDS : Option ℚ
  pH : Option ℚ
deriving DecidableEq, Repr

/-- The flow and depth half of the daily aggregation (water_data). -/
structure FDRow where
  ts : Int
  FlowInd : Option ℚ
  Depth : Option ℚ
deriving DecidableEq, Repr

/-- The TDS and pH half of the daily aggregation (tds_ph_data). -/
structure TPRow where
  ts : Int
  TDS : Option ℚ
  pH : Option ℚ
deriving DecidableEq, Repr

/-- The bucket row of a sum/sum/mean/mean aggregation at label k. -/
def sumRowAt (B : Reading → Int) (df : List Reading) (k : Int) : SumRow :=
  ⟨k, ((bucketOf B k df).map Reading.FlowInd).sum,
    ((bucketOf B k df).map Reading.Depth).sum,
    meanQ ((bucketOf B k df).map Reading.TDS),
    meanQ ((bucketOf B k df).map Reading.pH)⟩

/-- resample(...).agg with FlowInd sum, Depth sum, TDS mean, pH mean. -/
def resampleSum (B : Reading → Int) (df : List Reading) : List SumRow :=
  (keysOf B df).map (sumRowAt B df)

/-- The bucket row of an all-mean aggregation at label k. -/
def meanRowAt (B : Reading → Int) (df : List Reading) (k : Int) : MeanRow :=
  ⟨k, meanQ ((bucketOf B k df).map Reading.FlowInd),
    meanQ ((bucketOf B k df).map Reading.Depth),
    meanQ ((bucketOf B k df).map Reading.TDS),
    meanQ ((bucketOf B k df).map Reading.pH)⟩

/-- resample(...).agg with mean on all four columns. -/
def resampleMean (B : Reading → Int) (df : List Reading) : List MeanRow :=
  (keysOf B df).map (meanRowAt B df)

/-- resample(D).agg of FlowInd and Depth means (daily water_data). -/
def resampleFD (B : Reading → Int) (df : List Reading) : List FDRow :=
  (keysOf B df).map (fun k =>
    ⟨k, meanQ ((bucketOf B k df).map Reading.FlowInd),
      meanQ ((bucketOf B k df).map Reading.Depth)⟩)

/-- resample(D).agg of TDS and pH means (daily tds_ph_data). -/
def resampleTP (B : Reading → Int) (df : List Reading) : List TPRow :=
  (keysOf B df).map (fun k =>
    ⟨k, meanQ ((bucketOf B k df).map Reading.TDS),
      meanQ ((bucketOf B k df).map Reading.pH)⟩)

/-- water_data.merge(tds_ph_data, how=inner, on=timestamp): keep the
left rows whose bucket label also occurs on the right, in left order,
joining in the right-hand columns.  Labels are unique on both sides. -/
def innerMerge (w : List FDRow) (tp : List TPRow) : List MeanRow :=
  w.filterMap (fun a =>
    (tp.find? (fun b => decide (b.ts = a.ts))).map
      (fun b => ⟨a.ts, a.FlowInd, a.Depth, b.TDS, b.pH⟩))

/-- filter_data (lines 110-114): range query with no aggregation.  When
preprocess_data returns None the subscript df[...] raises a TypeError;
there is no guard and no try block around it. -/
def filter_data (parseTs : String → Option Timestamp) (data : List RawRecord)
    (f t : Int) : Except PyError (List Reading) :=
  match preprocess_data parseTs data with
  | none => Except.error PyError.typeError
  | some df => Except.ok (rangeFilter f t df)

/-- The aggregation core of the effective filter_data_hourly (lines
150-155, the later of the two definitions, which shadows the first):
drop TDS==0 rows, then pH==0 rows, resample by calendar hour with
FlowInd sum, Depth sum, TDS mean, pH mean.  No rounding is applied. -/
def filter_data_hourly_agg (df : List Reading) : List SumRow :=
  resampleSum (fun r => hourIdx r.timestamp) (zeroFilter df)

/-- The effective filter_data_hourly: like filter_data it subscripts the
preprocess_data result unguarded, so a failed cleaning raises. -/
def filter_data_hourly (parseTs : String → Option Timestamp) (data : List RawRecord) :
    Except PyError (List SumRow) :=
  match preprocess_data parseTs data with
  | none => Except.error PyError.typeError
  | some df => Except.ok (filter_data_hourly_agg df)

/-- The first, shadowed filter_data_hourly definition (lines 79-106): it
guards against a None or empty cleaned table, keeps only rows with
TDS > 0 and pH > 0, resamples hourly with mean on all four columns and
rounds every aggregate to 2 decimals. -/
def filter_data_hourly_v1 (parseTs : String → Option Timestamp) (data : List RawRecord) :
    Option (List MeanRow) :=
  match preprocess_data parseTs data with
  | none => none
  | some df =>
      if df = [] then none
      else some ((resampleMean (fun r => hourIdx r.timestamp) (posFilter df)).map
        (fun row => ⟨row.ts, row.FlowInd.map round2, row.Depth.map round2,
          row.TDS.map round2, row.pH.map round2⟩))

/-- The aggregation core of filter_data_daily (lines 117-127): range
filter first, then two independent daily resamples - means of FlowInd
and Depth over all in-range rows, means of TDS and pH over the
zero-filtered in-range rows - inner-merged on the bucket label. -/
def filter_data_daily_agg (f t : Int) (df : List Reading) : List MeanRow :=
  innerMerge (resampleFD (fun r => dayIdx r.timestamp) (rangeFilter f t df))
    (resampleTP (fun r => dayIdx r.timestamp) (zeroFilter (rangeFilter f t df)))

/-- filter_data_daily, unguarded like filter_data. -/
def filter_data_daily (parseTs : String → Option Timestamp) (data : List RawRecord)
    (f t : Int) : Except PyError (List MeanRow) :=
  match preprocess_data parseTs data with
  | none => Except.error PyError.typeError
  | some df => Except.ok (filter_data_daily_agg f t df)

/-- The aggregation core of filter_data_weekly (lines 130-136): range
filter, then resample by week ending Monday with FlowInd sum, Depth
sum, TDS mean, pH mean.  No TDS or pH zero row is excluded. -/
def filter_data_weekly_agg (f t : Int) (df : List Reading) : List SumRow :=
  resampleSum (fun r => weekIdx r.timestamp) (rangeFilter f t df)

/-- filter_data_weekly, unguarded like filter_data. -/
def filter_data_weekly (parseTs : String → Option Timestamp) (data : List RawRecord)
    (f t : Int) : Except PyError (List SumRow) :=
  match preprocess_data parseTs data with
  | none => Except.error PyError.typeError
  | some df => Except.ok (filter_data_weekly_agg f t df)

/-- The aggregation core of filter_data_monthly (lines 139-147): the
zero filter is applied before the range filter (the opposite order to
filter_data_daily), then a month-end resample with FlowInd sum, Depth
sum, TDS mean, pH mean. -/
def filter_data_monthly_agg (f t : Int) (df : List Reading) : List SumRow :=
  resampleSum (fun r => monthIdx r.timestamp) (rangeFilter f t (zeroFilter df))

/-- filter_data_monthly, unguarded like filter_data. -/
def filter_data_monthly (parseTs : String → Option Timestamp) (data : List RawRecord)
    (f t : Int) : Except PyError (List SumRow) :=
  match preprocess_data parseTs data with
  | none => Except.error PyError.typeError
  | some df => Except.ok (filter_data_monthly_agg f t df)

/-- Maximum timestamp column value of a table; consulted by update_data
only on nonempty tables. -/
def maxTs : List SumRow → Int
  | [] => 0
  | r :: rs => listMax r.ts (rs.map SumRow.ts)

/-- One iteration of the update_data background loop (main.py lines
77-107): fetched is the fetch_latest_data result, which is None on any
fetch, clean or verification failure.  The shared table is replaced by
the new one only when the new table is nonempty and either the current
table is empty or the new maximum timestamp strictly exceeds the
current one; otherwise it is left untouched. -/
def update_data_cycle (cur : List SumRow) (fetched : Option (List SumRow)) :
    List SumRow :=
  match fetched with
  | none => cur
  | some newDf =>
      if newDf = [] then cur
      else if cur = [] then newDf
      else if maxTs cur < maxTs newDf then newDf
      else cur

/-! Helper lemmas. -/

theorem isSome_optMap {α β : Type} (g : α → β) (o : Option α) :
    (o.map g).isSome = o.isSome := by
  cases o <;> rfl

theorem qfloor_intCast (n : Int) : qfloor (n : ℚ) = n := by
  simp [qfloor, Rat.num_intCast, Rat.den_intCast]

theorem rhe_intCast (n : Int) : rhe (n : ℚ) = n := by
  unfold rhe
  rw [qfloor_intCast]
  norm_num

theorem round2_idem (x : ℚ) : round2 (round2 x) = round2 x := by
  unfold round2
  rw [div_mul_cancel₀ _ (by norm_num : (100 : ℚ) ≠ 0), rhe_intCast]

theorem clampPH_range (x : ℚ) : 0 ≤ clampPH x ∧ clampPH x ≤ 14 := by
  unfold clampPH
  split
  next => norm_num
  next h1 =>
    split
    next => norm_num
    next h2 => exact ⟨le_of_not_lt h1, le_of_not_lt h2⟩

theorem clamp0_nonneg (x : ℚ) : 0 ≤ clamp0 x := by
  unfold clamp0
  split
  next => exact le_refl 0
  next h => exact le_of_not_lt h

theorem ffillGo_length (a : Option ℚ) (l : List (Option ℚ)) :
    (ffillGo a l).length = l.length := by
  induction l generalizing a with
  | nil => rfl
  | cons x xs ih => cases x <;> simp [ffillGo, ih]

theorem cleanCol_length (l : List (Option ℚ)) : (cleanCol l).length = l.length := by
  simp [cleanCol, fill0, bfill, ffill, ffillGo_length]

theorem mkReadings_mem :
    ∀ (ts : List Timestamp) (fs tds ps ds : List ℚ) (r : Reading),
      r ∈ mkReadings ts fs tds ps ds →
      r.timestamp ∈ ts ∧ r.FlowInd ∈ fs ∧ r.TDS ∈ tds ∧ r.pH ∈ ps ∧ r.Depth ∈ ds := by
  intro ts
  induction ts with
  | nil => intro fs tds ps ds r h; simp [mkReadings] at h
  | cons t ts2 ih =>
    intro fs tds ps ds r h
    cases fs with
    | nil => simp [mkReadings] at h
    | cons f fs2 =>
      cases tds with
      | nil => simp [mkReadings] at h
      | cons td tds2 =>
        cases ps with
        | nil => simp [mkReadings] at h
        | cons p ps2 =>
          cases ds with
          | nil => simp [mkReadings] at h
          | cons d ds2 =>
            rcases List.mem_cons.mp h with rfl | h2
            · exact ⟨List.mem_cons_self _ _, List.mem_cons_self _ _,
                List.mem_cons_self _ _, List.mem_cons_self _ _, List.mem_cons_self _ _⟩
            · obtain ⟨h3, h4, h5, h6, h7⟩ := ih fs2 tds2 ps2 ds2 r h2
              exact ⟨List.mem_cons_of_mem _ h3, List.mem_cons_of_mem _ h4,
                List.mem_cons_of_mem _ h5, List.mem_cons_of_mem _ h6,
                List.mem_cons_of_mem _ h7⟩

theorem mkReadings_length :
    ∀ (ts : List Timestamp) (fs tds ps ds : List ℚ),
      fs.length = ts.length → tds.length = ts.length → ps.length = ts.length →
      ds.length = ts.length →
      (mkReadings ts fs tds ps ds).length = ts.length := by
  intro ts
  induction ts with
  | nil => intro fs tds ps ds _ _ _ _; simp [mkReadings]
  | cons t ts2 ih =>
    intro fs tds ps ds h1 h2 h3 h4
    cases fs with
    | nil => simp at h1
    | cons f fs2 =>
      cases tds with
      | nil => simp at h2
      | cons td tds2 =>
        cases ps with
        | nil => simp at h3
        | cons p ps2 =>
          cases ds with
          | nil => simp at h4
          | cons d ds2 =>
            simp only [mkReadings, List.length_cons] at *
            exact congrArg Nat.succ (ih fs2 tds2 ps2 ds2 (by omega) (by omega)
              (by omega) (by omega))

theorem length_filterMap_isSome {α β : Type} (g : α → Option β) (l : List α) :
    (l.filterMap g).length = (l.filter (fun a => (g a).isSome)).length := by
  induction l with
  | nil => rfl
  | cons x xs ih =>
    cases hx : g x <;> simp [List.filterMap_cons, List.filter_cons, hx, ih]

theorem filter_swap (p q : Reading → Bool) (l : List Reading) :
    (l.filter p).filter q = (l.filter q).filter p := by
  induction l with
  | nil => rfl
  | cons x xs ih =>
    cases hp : p x <;> cases hq : q x <;>
      simp [List.filter_cons, hp, hq, ih]

theorem listMin_attain (a : Int) (l : List Int) :
    listMin a l = a ∨ listMin a l ∈ l := by
  induction l generalizing a with
  | nil => left; rfl
  | cons x xs ih =>
    rcases ih (min a x) with h | h
    · rcases min_choice a x with h2 | h2
      · left
        simpa [listMin, h2] using h
      · right
        have h3 : listMin a (x :: xs) = x := by simpa [listMin, h2] using h
        rw [h3]
        exact List.mem_cons_self _ _
    · right
      exact List.mem_cons_of_mem _ h

theorem listMax_attain (a : Int) (l : List Int) :
    listMax a l = a ∨ listMax a l ∈ l := by
  induction l generalizing a with
  | nil => left; rfl
  | cons x xs ih =>
    rcases ih (max a x) with h | h
    · rcases max_choice a x with h2 | h2
      · left
        simpa [listMax, h2] using h
      · right
        have h3 : listMax a (x :: xs) = x := by simpa [listMax, h2] using h
        rw [h3]
        exact List.mem_cons_self _ _
    · right
      exact List.mem_cons_of_mem _ h

theorem keysOf_bounds {B : Reading → Int} {l : List Reading} {k : Int}
    (h : k ∈ keysOf B l) :
    (∃ r1, r1 ∈ l ∧ B r1 ≤ k) ∧ (∃ r2, r2 ∈ l ∧ k ≤ B r2) := by
  cases l with
  | nil => simp [keysOf] at h
  | cons r rs =>
    simp only [keysOf] at h
    rcases List.mem_map.mp h with ⟨i, hi, rfl⟩
    have hi2 := List.mem_range.mp hi
    have hlo : listMin (B r) (rs.map B) ≤ listMin (B r) (rs.map B) + (i : Int) := by omega
    have hhi : listMin (B r) (rs.map B) + (i : Int) ≤ listMax (B r) (rs.map B) := by omega
    constructor
    · rcases listMin_attain (B r) (rs.map B) with h2 | h2
      · exact ⟨r, List.mem_cons_self _ _, by rw [h2]; omega⟩
      · rcases List.mem_map.mp h2 with ⟨r1, hr1, hr1b⟩
        exact ⟨r1, List.mem_cons_of_mem _ hr1, by rw [hr1b]; omega⟩
    · rcases listMax_attain (B r) (rs.map B) with h2 | h2
      · exact ⟨r, List.mem_cons_self _ _, by rw [h2] at hhi; exact hhi⟩
      · rcases List.mem_map.mp h2 with ⟨r2, hr2, hr2b⟩
        exact ⟨r2, List.mem_cons_of_mem _ hr2, by rw [hr2b]; exact hhi⟩

theorem preprocess_data_eq_some {p : String → Option Timestamp} {data : List RawRecord}
    {df : List Reading} (h : preprocess_data p data = some df) :
    df = cleanTable (parsedRows p data) := by
  unfold preprocess_data at h
  split at h
  · exact absurd h (by simp)
  · exact (Option.some.inj h).symm

theorem cleanTable_mem {rows : List (Timestamp × RawRecord)} {r : Reading}
    (h : r ∈ cleanTable rows) :
    r.timestamp ∈ rows.map (fun x => x.1) ∧
    r.FlowInd ∈ flowFinal (rows.map (fun x => x.2.FlowInd)) ∧
    r.TDS ∈ tdsFinal (rows.map (fun x => x.2.TDS)) ∧
    r.pH ∈ phFinal (rows.map (fun x => x.2.pH)) ∧
    r.Depth ∈ depthFinal (rows.map (fun x => x.2.Depth)) :=
  mkReadings_mem _ _ _ _ _ _ h

/-! Claim C10. -/

/-- C10: the TDS/pH nonzero row filter and the inclusive calendar-date
range filter commute: applying the zero filter first and the range
filter second (the order of filter_data_monthly) selects exactly the
rows selected by range filter first and zero filter second (the order
of filter_data_daily). -/
theorem zero_range_filters_commute (df : List Reading) (f t : Int) :
    rangeFilter f t (zeroFilter df) = zeroFilter (rangeFilter f t df) := by
  unfold zeroFilter rangeFilter
  rw [filter_swap (fun r => decide (r.pH ≠ 0))
        (fun r => decide (f ≤ dayIdx r.timestamp) && decide (dayIdx r.timestamp ≤ t)),
      filter_swap (fun r => decide (r.TDS ≠ 0))
        (fun r => decide (f ≤ dayIdx r.timestamp) && decide (dayIdx r.timestamp ≤ t))]

/-! Claim C4. -/

/-- Parse map for the C4 example table: five strings map to five
successive hours of 1970-01-05. -/
def pC4 : String → Option Timestamp := fun s =>
  if s = "1" then some ⟨1970, 1, 5, 0, 0, 0⟩
  else if s = "2" then some ⟨1970, 1, 5, 1, 0, 0⟩
  else if s = "3" then some ⟨1970, 1, 5, 2, 0, 0⟩
  else if s = "4" then some ⟨1970, 1, 5, 3, 0, 0⟩
  else if s = "5" then some ⟨1970, 1, 5, 4, 0, 0⟩
  else none

/-- C4 example records: the Depth column reads NaN, NaN, 5, NaN, 8 in
timestamp order. -/
def recsC4 : List RawRecord :=
  [⟨"1", some 1, some 1, some 7, none⟩,
   ⟨"2", some 1, some 1, some 7, none⟩,
   ⟨"3", some 1, some 1, some 7, some 5⟩,
   ⟨"4", some 1, some 1, some 7, none⟩,
   ⟨"5", some 1, some 1, some 7, some 8⟩]

/-- C4 counterexample: the null-repair chain on the column
NaN, NaN, 5, NaN, 8 does not produce 5, 5, 5, 8, 8 as claimed - the
interior NaN sits after the valid 5, so the forward fill already fills
it with 5 before the backward fill runs. -/
theorem cleanCol_fill_counterexample :
    cleanCol [none, none, some 5, none, some 8] ≠ [5, 5, 5, 8, 8] := by
  decide

/-- The cleaned table of the C4 example records. -/
def outC4 : List Reading :=
  [⟨⟨1970, 1, 5, 0, 0, 0⟩, 1, 1, 7, 5⟩,
   ⟨⟨1970, 1, 5, 1, 0, 0⟩, 1, 1, 7, 5⟩,
   ⟨⟨1970, 1, 5, 2, 0, 0⟩, 1, 1, 7, 5⟩,
   ⟨⟨1970, 1, 5, 3, 0, 0⟩, 1, 1, 7, 5⟩,
   ⟨⟨1970, 1, 5, 4, 0, 0⟩, 1, 1, 7, 8⟩]

/-- C4 (amended): for a single numeric column whose values in timestamp
order are NaN, NaN, 5, NaN, 8, the cleaning null-repair (forward-fill,
then backward-fill, then fill remainder with 0) produces exactly
5, 5, 5, 5, 8 - both at column level and through the full cleaning
stage on a table carrying that Depth column. -/
theorem cleanCol_fill_example :
    cleanCol [none, none, some 5, none, some 8] = [5, 5, 5, 5, 8] ∧
    preprocess_data pC4 recsC4 = some outC4 ∧
    outC4.map Reading.Depth = [5, 5, 5, 5, 8] := by
  refine ⟨by decide, ?_, by decide⟩
  norm_num [preprocess_data, cleanTable, parsedRows, recsC4, pC4, outC4,
    mkReadings, flowFinal, tdsFinal, phFinal, depthFinal, cleanCol, fill0,
    bfill, ffill, ffillGo, clamp0, clampPH, round2, rhe, qfloor]
  intro h
  simp at h

/-! Claim C2. -/

/-- Parse map for the C2 example: irrelevant, since the failing input
is an empty fetch result. -/
def parseC2 : String → Option Timestamp := fun _ => none

/-- C2 counterexample: on an input where the cleaning stage fails and
returns None (an empty fetch payload), the downstream range query
filter_data raises a TypeError (subscripting None) instead of
returning a null or empty result. -/
theorem filter_data_null_counterexample :
    preprocess_data parseC2 [] = none ∧
    filter_data parseC2 [] 0 0 = Except.error PyError.typeError ∧
    (Except.error PyError.typeError : Except PyError (List Reading)) ≠
      Except.ok [] :=
  ⟨rfl, rfl, fun h => nomatch h⟩

/-- C2 (amended): whenever the cleaning stage fails and returns None,
the range filter filter_data propagates the failure as a raised
TypeError - not as a null or empty result; only the shadowed first
hourly definition guards against a None cleaned table. -/
theorem filter_data_raises_on_failed_cleaning (p : String → Option Timestamp)
    (data : List RawRecord) (f t : Int)
    (h : preprocess_data p data = none) :
    filter_data p data f t = Except.error PyError.typeError := by
  unfold filter_data
  rw [h]

/-- C2 witness: the amended theorem applied to a concrete failing
input, the empty fetch payload. -/
theorem filter_data_raises_witness :
    preprocess_data parseC2 [] = none ∧
    filter_data parseC2 [] 0 0 = Except.error PyError.typeError :=
  ⟨rfl, filter_data_raises_on_failed_cleaning parseC2 [] 0 0 rfl⟩

/-! Claim C1. -/

/-- Three readings inside the same hour (10:00-11:00 of 1970-01-05, hour
index 106) with TDS values 0, 10, 20. -/
def exC1tbl : List Reading :=
  [⟨⟨1970, 1, 5, 10, 0, 0⟩, 2, 0, 7, 1⟩,
   ⟨⟨1970, 1, 5, 10, 20, 0⟩, 2, 10, 7, 1⟩,
   ⟨⟨1970, 1, 5, 10, 40, 0⟩, 4, 20, 7, 1⟩]

/-- C1 counterexample: the effective hourly aggregation does not reduce
every column with the mean.  On a bucket whose surviving readings have
FlowInd 2 and 4, the output FlowInd is their sum 6, not their mean 3
(TDS is indeed the mean 15 of the nonzero values 10 and 20). -/
theorem filter_data_hourly_mean_counterexample :
    filter_data_hourly_agg exC1tbl = [⟨106, 6, 2, some 15, some 7⟩] ∧
    meanQ (((zeroFilter exC1tbl).filter
      (fun r => decide (hourIdx r.timestamp = 106))).map Reading.FlowInd) =
      some 3 ∧
    (6 : ℚ) ≠ 3 := by
  refine ⟨?_, ?_, by norm_num⟩ <;>
    norm_num [filter_data_hourly_agg, resampleSum, keysOf, listMin, listMax,
      sumRowAt, bucketOf, zeroFilter, exC1tbl, hourIdx, dayIdx, daysFromCivil,
      meanQ, List.range, List.range.loop, Int.fdiv, Int.emod]

/-- C1 (amended): every row of the effective hourly aggregation is the
reduction of exactly the rows of the cleaned table that survive the
TDS==0/pH==0 exclusion and fall in that calendar hour: FlowInd and
Depth are reduced with the sum, TDS and pH with the mean (so readings
with TDS 0, 10, 20 in one hour yield mean TDS 15, not 10). -/
theorem filter_data_hourly_agg_fields (df : List Reading) (row : SumRow)
    (h : row ∈ filter_data_hourly_agg df) :
    row.FlowInd = (((zeroFilter df).filter
      (fun r => decide (hourIdx r.timestamp = row.ts))).map Reading.FlowInd).sum ∧
    row.Depth = (((zeroFilter df).filter
      (fun r => decide (hourIdx r.timestamp = row.ts))).map Reading.Depth).sum ∧
    row.TDS = meanQ (((zeroFilter df).filter
      (fun r => decide (hourIdx r.timestamp = row.ts))).map Reading.TDS) ∧
    row.pH = meanQ (((zeroFilter df).filter
      (fun r => decide (hourIdx r.timestamp = row.ts))).map Reading.pH) := by
  rcases List.mem_map.mp h with ⟨k, -, rfl⟩
  exact ⟨rfl, rfl, rfl, rfl⟩

/-- C1 witness: the amended theorem applied to the concrete table with
hourly TDS readings 0, 10, 20, whose single bucket has mean TDS 15. -/
theorem filter_data_hourly_agg_fields_witness :
    (⟨106, 6, 2, some 15, some 7⟩ : SumRow) ∈ filter_data_hourly_agg exC1tbl ∧
    (⟨106, 6, 2, some 15, some 7⟩ : SumRow).TDS =
      meanQ (((zeroFilter exC1tbl).filter
        (fun r => decide (hourIdx r.timestamp =
          (⟨106, 6, 2, some 15, some 7⟩ : SumRow).ts))).map Reading.TDS) ∧
    meanQ (((zeroFilter exC1tbl).filter
      (fun r => decide (hourIdx r.timestamp = 106))).map Reading.TDS) =
      some 15 := by
  have hagg : filter_data_hourly_agg exC1tbl = [⟨106, 6, 2, some 15, some 7⟩] := by
    norm_num [filter_data_hourly_agg, resampleSum, keysOf, listMin, listMax,
      sumRowAt, bucketOf, zeroFilter, exC1tbl, hourIdx, dayIdx, daysFromCivil,
      meanQ, List.range, List.range.loop, Int.fdiv, Int.emod]
  have hmem : (⟨106, 6, 2, some 15, some 7⟩ : SumRow) ∈ filter_data_hourly_agg exC1tbl := by
    rw [hagg]; exact List.mem_cons_self _ _
  refine ⟨hmem, (filter_data_hourly_agg_fields exC1tbl _ hmem).2.2.1, ?_⟩
  norm_num [zeroFilter, exC1tbl, hourIdx, dayIdx, daysFromCivil, meanQ,
    Int.fdiv, Int.emod]

/-! Claim C3. -/

/-- Two readings in the same week (ending Monday 1970-01-05, week index
4), one with TDS 0 and one with TDS 10. -/
def exC3tbl : List Reading :=
  [⟨⟨1970, 1, 5, 10, 0, 0⟩, 1, 0, 7, 1⟩,
   ⟨⟨1970, 1, 5, 11, 0, 0⟩, 2, 10, 7, 1⟩]

/-- C3 counterexample: weekly aggregation does not exclude TDS==0 or
pH==0 rows.  With in-range readings of TDS 0 and 10 in one week, the
weekly TDS mean is 5 - the zero row contributes - whereas excluding
zero rows would give 10. -/
theorem filter_data_weekly_zero_counterexample :
    filter_data_weekly_agg 0 100 exC3tbl = [⟨4, 3, 2, some 5, some 7⟩] ∧
    meanQ ((exC3tbl.filter
      (fun r => decide (r.TDS ≠ 0) && decide (r.pH ≠ 0))).map Reading.TDS) =
      some 10 ∧
    some (5 : ℚ) ≠ some 10 := by
  refine ⟨?_, ?_, by norm_num⟩ <;>
    norm_num [filter_data_weekly_agg, resampleSum, keysOf, listMin, listMax,
      sumRowAt, bucketOf, rangeFilter, exC3tbl, weekIdx, dayIdx, daysFromCivil,
      meanQ, List.range, List.range.loop, Int.fdiv, Int.emod]

/-- C3 (amended): every row of the weekly aggregation reduces exactly
the in-range rows of that week-ending-Monday bucket, with no TDS or pH
zero exclusion: FlowInd and Depth by sum, TDS and pH by mean over all
in-range rows of the bucket, zero values included. -/
theorem filter_data_weekly_agg_fields (f t : Int) (df : List Reading) (row : SumRow)
    (h : row ∈ filter_data_weekly_agg f t df) :
    row.FlowInd = (((rangeFilter f t df).filter
      (fun r => decide (weekIdx r.timestamp = row.ts))).map Reading.FlowInd).sum ∧
    row.Depth = (((rangeFilter f t df).filter
      (fun r => decide (weekIdx r.timestamp = row.ts))).map Reading.Depth).sum ∧
    row.TDS = meanQ (((rangeFilter f t df).filter
      (fun r => decide (weekIdx r.timestamp = row.ts))).map Reading.TDS) ∧
    row.pH = meanQ (((rangeFilter f t df).filter
      (fun r => decide (weekIdx r.timestamp = row.ts))).map Reading.pH) := by
  rcases List.mem_map.mp h with ⟨k, -, rfl⟩
  exact ⟨rfl, rfl, rfl, rfl⟩

/-- C3 witness: the amended theorem applied to the concrete two-reading
week, whose TDS bucket mean 5 includes the zero reading. -/
theorem filter_data_weekly_agg_fields_witness :
    (⟨4, 3, 2, some 5, some 7⟩ : SumRow) ∈ filter_data_weekly_agg 0 100 exC3tbl ∧
    (⟨4, 3, 2, some 5, some 7⟩ : SumRow).TDS =
      meanQ (((rangeFilter 0 100 exC3tbl).filter
        (fun r => decide (weekIdx r.timestamp =
          (⟨4, 3, 2, some 5, some 7⟩ : SumRow).ts))).map Reading.TDS) := by
  have hagg : filter_data_weekly_agg 0 100 exC3tbl = [⟨4, 3, 2, some 5, some 7⟩] := by
    norm_num [filter_data_weekly_agg, resampleSum, keysOf, listMin, listMax,
      sumRowAt, bucketOf, rangeFilter, exC3tbl, weekIdx, dayIdx, daysFromCivil,
      meanQ, List.range, List.range.loop, Int.fdiv, Int.emod]
  have hmem : (⟨4, 3, 2, some 5, some 7⟩ : SumRow) ∈ filter_data_weekly_agg 0 100 exC3tbl := by
    rw [hagg]; exact List.mem_cons_self _ _
  exact ⟨hmem, (filter_data_weekly_agg_fields 0 100 exC3tbl _ hmem).2.2.1⟩

/-! Claim C5. -/

/-- Parse map for the C5 example: two strings map to two hours of
1970-01-05. -/
def pC5 : String → Option Timestamp := fun s =>
  if s = "a" then some ⟨1970, 1, 5, 0, 0, 0⟩
  else if s = "b" then some ⟨1970, 1, 5, 1, 0, 0⟩
  else none

/-- C5 example records: one row with pH -5 and TDS, Depth, FlowInd all
-3; one row with pH 20. -/
def recsC5 : List RawRecord :=
  [⟨"a", some (-3), some (-3), some (-5), some (-3)⟩,
   ⟨"b", some 1, some 100, some 20, some 1⟩]

/-- The cleaned table of the C5 example records: both out-of-range pH
values become 7, the -3 values become 0. -/
def outC5 : List Reading :=
  [⟨⟨1970, 1, 5, 0, 0, 0⟩, 0, 0, 7, 0⟩,
   ⟨⟨1970, 1, 5, 1, 0, 0⟩, 1, 100, 7, 1⟩]

/-- C5: on every cleaned table pH lies in the range 0 to 14 and TDS,
Depth and FlowInd are never negative; concretely, input pH -5 and 20
both map to exactly 7.0 and input -3 in the other columns maps to 0. -/
theorem preprocess_data_range_validation :
    (∀ (p : String → Option Timestamp) (data : List RawRecord) (df : List Reading),
      preprocess_data p data = some df → ∀ r, r ∈ df →
        0 ≤ r.pH ∧ r.pH ≤ 14 ∧ 0 ≤ r.TDS ∧ 0 ≤ r.Depth ∧ 0 ≤ r.FlowInd) ∧
    preprocess_data pC5 recsC5 = some outC5 := by
  constructor
  · intro p data df h r hr
    rw [preprocess_data_eq_some h] at hr
    obtain ⟨-, hFlow, hTDS, hpH, hDepth⟩ := cleanTable_mem hr
    simp only [phFinal] at hpH
    simp only [tdsFinal] at hTDS
    simp only [depthFinal] at hDepth
    simp only [flowFinal] at hFlow
    rcases List.mem_map.mp hpH with ⟨y1, -, hy1⟩
    rcases List.mem_map.mp hTDS with ⟨y2, -, hy2⟩
    rcases List.mem_map.mp hDepth with ⟨y3, -, hy3⟩
    rcases List.mem_map.mp hFlow with ⟨y4, -, hy4⟩
    refine ⟨?_, ?_, ?_, ?_, ?_⟩
    · rw [← hy1]; exact (clampPH_range _).1
    · rw [← hy1]; exact (clampPH_range _).2
    · rw [← hy2]; exact clamp0_nonneg _
    · rw [← hy3]; exact clamp0_nonneg _
    · rw [← hy4]; exact clamp0_nonneg _
  · norm_num [preprocess_data, cleanTable, parsedRows, recsC5, pC5, outC5,
      mkReadings, flowFinal, tdsFinal, phFinal, depthFinal, cleanCol, fill0,
      bfill, ffill, ffillGo, clamp0, clampPH, round2, rhe, qfloor]
    intro h
    simp at h

/-- C5 witness: the range bounds instantiated at the first cleaned row
of the concrete table (input pH -5, all other columns -3). -/
theorem preprocess_data_range_validation_witness :
    0 ≤ (⟨⟨1970, 1, 5, 0, 0, 0⟩, 0, 0, 7, 0⟩ : Reading).pH ∧
    (⟨⟨1970, 1, 5, 0, 0, 0⟩, 0, 0, 7, 0⟩ : Reading).pH ≤ 14 ∧
    0 ≤ (⟨⟨1970, 1, 5, 0, 0, 0⟩, 0, 0, 7, 0⟩ : Reading).TDS ∧
    0 ≤ (⟨⟨1970, 1, 5, 0, 0, 0⟩, 0, 0, 7, 0⟩ : Reading).Depth ∧
    0 ≤ (⟨⟨1970, 1, 5, 0, 0, 0⟩, 0, 0, 7, 0⟩ : Reading).FlowInd :=
  preprocess_data_range_validation.1 pC5 recsC5 outC5
    preprocess_data_range_validation.2 _ (List.mem_cons_self _ _)

/-! Claim C7. -/

/-- C7: every row of a successfully cleaned table carries a timestamp
that parsed successfully from some input record, and the table has
exactly one row per input record with a parseable timestamp - rows
whose timestamp fails to parse are dropped entirely, never repaired. -/
theorem preprocess_data_timestamps (p : String → Option Timestamp)
    (data : List RawRecord) (df : List Reading)
    (h : preprocess_data p data = some df) :
    (∀ r, r ∈ df → ∃ a, a ∈ data ∧ p a.timestamp = some r.timestamp) ∧
    df.length = (data.filter (fun a => (p a.timestamp).isSome)).length := by
  rw [preprocess_data_eq_some h]
  constructor
  · intro r hr
    obtain ⟨hts, -, -, -, -⟩ := cleanTable_mem hr
    rcases List.mem_map.mp hts with ⟨x, hx, hx2⟩
    rcases List.mem_filterMap.mp hx with ⟨a, ha, ha2⟩
    rcases Option.map_eq_some'.mp ha2 with ⟨ts0, hts0, hts0b⟩
    refine ⟨a, ha, ?_⟩
    rw [hts0, ← hx2, ← hts0b]
  · have e1 : (flowFinal ((parsedRows p data).map (fun x => x.2.FlowInd))).length
        = ((parsedRows p data).map (fun x => x.1)).length := by
      simp [flowFinal, cleanCol_length]
    have e2 : (tdsFinal ((parsedRows p data).map (fun x => x.2.TDS))).length
        = ((parsedRows p data).map (fun x => x.1)).length := by
      simp [tdsFinal, cleanCol_length]
    have e3 : (phFinal ((parsedRows p data).map (fun x => x.2.pH))).length
        = ((parsedRows p data).map (fun x => x.1)).length := by
      simp [phFinal, cleanCol_length]
    have e4 : (depthFinal ((parsedRows p data).map (fun x => x.2.Depth))).length
        = ((parsedRows p data).map (fun x => x.1)).length := by
      simp [depthFinal, cleanCol_length]
    unfold cleanTable
    rw [mkReadings_length _ _ _ _ _ e1 e2 e3 e4, List.length_map]
    unfold parsedRows
    rw [length_filterMap_isSome]
    congr 1
    apply List.filter_congr
    intro a _
    exact isSome_optMap _ _

/-- Parse map for the C7 example: only the string ok parses. -/
def pC7 : String → Option Timestamp := fun s =>
  if s = "ok" then some ⟨1970, 1, 5, 0, 0, 0⟩ else none

/-- C7 example records: one parseable timestamp, one not. -/
def recsC7 : List RawRecord :=
  [⟨"ok", some 1, some 1, some 7, some 1⟩,
   ⟨"bad", some 2, some 2, some 6, some 2⟩]

/-- The cleaned table of the C7 example records: the unparseable row is
dropped. -/
def outC7 : List Reading :=
  [⟨⟨1970, 1, 5, 0, 0, 0⟩, 1, 1, 7, 1⟩]

/-- C7 witness: the theorem applied to a concrete table with one
parseable and one unparseable timestamp. -/
theorem preprocess_data_timestamps_witness :
    outC7.length = (recsC7.filter (fun a => (pC7 a.timestamp).isSome)).length :=
  (preprocess_data_timestamps pC7 recsC7 outC7 (by
    norm_num [preprocess_data, cleanTable, parsedRows, recsC7, pC7, outC7,
      mkReadings, flowFinal, tdsFinal, phFinal, depthFinal, cleanCol, fill0,
      bfill, ffill, ffillGo, clamp0, clampPH, round2, rhe, qfloor]
    intro h
    simp at h)).2

/-! Claim C6. -/

/-- Three readings on three consecutive days (day indices 4, 5, 6); the
middle day has flow data but its only reading carries TDS 0. -/
def exC6tbl : List Reading :=
  [⟨⟨1970, 1, 5, 10, 0, 0⟩, 1, 10, 7, 1⟩,
   ⟨⟨1970, 1, 6, 10, 0, 0⟩, 2, 0, 7, 2⟩,
   ⟨⟨1970, 1, 7, 10, 0, 0⟩, 3, 20, 7, 3⟩]

/-- C6 counterexample: a day with flow data but no nonzero-TDS/pH data
can still produce a row in the daily output.  Day 5 has only a TDS 0
reading, yet the daily output contains a row for day 5 (with missing
TDS and pH), because the daily resample of the zero-filtered subset
emits a bucket for every day between its first and last reading. -/
theorem filter_data_daily_join_counterexample :
    filter_data_daily_agg 0 100 exC6tbl =
      [⟨4, some 1, some 1, some 10, some 7⟩,
       ⟨5, some 2, some 2, none, none⟩,
       ⟨6, some 3, some 3, some 20, some 7⟩] ∧
    exC6tbl.filter (fun r => decide (dayIdx r.timestamp = 5) &&
      decide (r.TDS ≠ 0) && decide (r.pH ≠ 0)) = [] := by
  constructor <;>
    norm_num [filter_data_daily_agg, innerMerge, resampleFD, resampleTP,
      keysOf, listMin, listMax, bucketOf, zeroFilter, rangeFilter, exC6tbl,
      dayIdx, daysFromCivil, meanQ, List.range, List.range.loop, List.find?,
      List.filterMap, Option.map, Int.fdiv, Int.emod]

/-- C6 (amended): every daily output row joins the mean of FlowInd and
Depth over all in-range rows of its day with the mean of TDS and pH
over the zero-filtered in-range rows of its day, and its day always
lies within the day span of the zero-filtered subset.  Consequently a
day with flow data but no nonzero-TDS/pH data produces no row only
when it falls outside that span; inside the span it appears with
missing TDS and pH values. -/
theorem filter_data_daily_agg_fields (f t : Int) (df : List Reading) (row : MeanRow)
    (h : row ∈ filter_data_daily_agg f t df) :
    row.FlowInd = meanQ (((rangeFilter f t df).filter
      (fun r => decide (dayIdx r.timestamp = row.ts))).map Reading.FlowInd) ∧
    row.Depth = meanQ (((rangeFilter f t df).filter
      (fun r => decide (dayIdx r.timestamp = row.ts))).map Reading.Depth) ∧
    row.TDS = meanQ (((zeroFilter (rangeFilter f t df)).filter
      (fun r => decide (dayIdx r.timestamp = row.ts))).map Reading.TDS) ∧
    row.pH = meanQ (((zeroFilter (rangeFilter f t df)).filter
      (fun r => decide (dayIdx r.timestamp = row.ts))).map Reading.pH) ∧
    (∃ r1, r1 ∈ zeroFilter (rangeFilter f t df) ∧ dayIdx r1.timestamp ≤ row.ts) ∧
    (∃ r2, r2 ∈ zeroFilter (rangeFilter f t df) ∧ row.ts ≤ dayIdx r2.timestamp) := by
  simp only [filter_data_daily_agg, innerMerge] at h
  rcases List.mem_filterMap.mp h with ⟨a, ha, hfm⟩
  rcases Option.map_eq_some'.mp hfm with ⟨b, hfind, hrow⟩
  have hbmem := List.mem_of_find?_eq_some hfind
  have hpb := @List.find?_some TPRow (fun c => decide (c.ts = a.ts)) b
    (resampleTP (fun r => dayIdx r.timestamp) (zeroFilter (rangeFilter f t df))) hfind
  have hbts : b.ts = a.ts := of_decide_eq_true hpb
  simp only [resampleFD] at ha
  simp only [resampleTP] at hbmem
  rcases List.mem_map.mp ha with ⟨k, hk, ha2⟩
  rcases List.mem_map.mp hbmem with ⟨k2, hk2, hb2⟩
  subst hrow
  subst ha2
  subst hb2
  have hkk : k2 = k := hbts
  subst hkk
  refine ⟨rfl, rfl, rfl, rfl, ?_, ?_⟩
  · obtain ⟨⟨r1, hr1, hr1b⟩, -⟩ := keysOf_bounds hk2
    exact ⟨r1, hr1, hr1b⟩
  · obtain ⟨-, r2, hr2, hr2b⟩ := keysOf_bounds hk2
    exact ⟨r2, hr2, hr2b⟩

/-- C6 witness: the amended theorem applied to the day-5 row of the
concrete three-day table - the day sits inside the zero-filtered span,
so it appears, with TDS equal to the mean over an empty set, missing. -/
theorem filter_data_daily_agg_fields_witness :
    (⟨5, some 2, some 2, none, none⟩ : MeanRow) ∈ filter_data_daily_agg 0 100 exC6tbl ∧
    (⟨5, some 2, some 2, none, none⟩ : MeanRow).TDS =
      meanQ (((zeroFilter (rangeFilter 0 100 exC6tbl)).filter
        (fun r => decide (dayIdx r.timestamp =
          (⟨5, some 2, some 2, none, none⟩ : MeanRow).ts))).map Reading.TDS) := by
  have hagg : filter_data_daily_agg 0 100 exC6tbl =
      [⟨4, some 1, some 1, some 10, some 7⟩,
       ⟨5, some 2, some 2, none, none⟩,
       ⟨6, some 3, some 3, some 20, some 7⟩] := by
    norm_num [filter_data_daily_agg, innerMerge, resampleFD, resampleTP,
      keysOf, listMin, listMax, bucketOf, zeroFilter, rangeFilter, exC6tbl,
      dayIdx, daysFromCivil, meanQ, List.range, List.range.loop, List.find?,
      List.filterMap, Option.map, Int.fdiv, Int.emod]
  have hmem : (⟨5, some 2, some 2, none, none⟩ : MeanRow) ∈
      filter_data_daily_agg 0 100 exC6tbl := by
    rw [hagg]
    exact List.mem_cons_of_mem _ (List.mem_cons_self _ _)
  exact ⟨hmem, (filter_data_daily_agg_fields 0 100 exC6tbl _ hmem).2.2.1⟩

/-! Claim C8. -/

/-- A canonical table with three same-hour readings whose TDS values
1, 1, 2 have the non-terminating mean 4/3. -/
def exC8tbl : List Reading :=
  [⟨⟨1970, 1, 5, 10, 0, 0⟩, 1, 1, 7, 1⟩,
   ⟨⟨1970, 1, 5, 10, 20, 0⟩, 1, 1, 7, 1⟩,
   ⟨⟨1970, 1, 5, 10, 40, 0⟩, 1, 2, 7, 1⟩]

/-- C8 counterexample: the effective aggregation operations do not
round their outputs.  The effective hourly aggregation of TDS readings
1, 1, 2 produces the exact mean 4/3, which differs from its own
rounding to 2 decimals (1.33). -/
theorem aggregation_unrounded_counterexample :
    filter_data_hourly_agg exC8tbl = [⟨106, 3, 3, some (4/3), some 7⟩] ∧
    round2 (4/3 : ℚ) ≠ (4/3 : ℚ) := by
  constructor
  · norm_num [filter_data_hourly_agg, resampleSum, keysOf, listMin, listMax,
      sumRowAt, bucketOf, zeroFilter, exC8tbl, hourIdx, dayIdx, daysFromCivil,
      meanQ, List.range, List.range.loop, Int.fdiv, Int.emod]
  · norm_num [round2, rhe, qfloor, Int.fdiv, Int.emod]

/-- C8 (amended): only the shadowed first hourly definition rounds its
aggregates: every numeric value it outputs equals its own rounding to
2 decimal places.  The effective hourly, daily, weekly and monthly
aggregations return the exact unrounded reductions. -/
theorem filter_data_hourly_v1_rounded (p : String → Option Timestamp)
    (data : List RawRecord) (out : List MeanRow) (row : MeanRow)
    (hout : filter_data_hourly_v1 p data = some out) (hrow : row ∈ out) :
    (∀ x, row.FlowInd = some x → round2 x = x) ∧
    (∀ x, row.Depth = some x → round2 x = x) ∧
    (∀ x, row.TDS = some x → round2 x = x) ∧
    (∀ x, row.pH = some x → round2 x = x) := by
  unfold filter_data_hourly_v1 at hout
  split at hout
  · exact absurd hout (by simp)
  · split at hout
    · exact absurd hout (by simp)
    · rw [← Option.some.inj hout] at hrow
      rcases List.mem_map.mp hrow with ⟨row0, -, hrow0⟩
      subst hrow0
      refine ⟨?_, ?_, ?_, ?_⟩
      · intro x hx
        have hx2 : Option.map round2 row0.FlowInd = some x := hx
        rcases Option.map_eq_some'.mp hx2 with ⟨y, -, hy⟩
        rw [← hy]
        exact round2_idem y
      · intro x hx
        have hx2 : Option.map round2 row0.Depth = some x := hx
        rcases Option.map_eq_some'.mp hx2 with ⟨y, -, hy⟩
        rw [← hy]
        exact round2_idem y
      · intro x hx
        have hx2 : Option.map round2 row0.TDS = some x := hx
        rcases Option.map_eq_some'.mp hx2 with ⟨y, -, hy⟩
        rw [← hy]
        exact round2_idem y
      · intro x hx
        have hx2 : Option.map round2 row0.pH = some x := hx
        rcases Option.map_eq_some'.mp hx2 with ⟨y, -, hy⟩
        rw [← hy]
        exact round2_idem y

/-- Parse map for the C8 witness: every record lands at 10:00 of
1970-01-05 (hour index 106). -/
def pC8 : String → Option Timestamp := fun _ => some ⟨1970, 1, 5, 10, 0, 0⟩

/-- C8 witness records: three same-hour readings with TDS 1, 1, 2. -/
def recsC8 : List RawRecord :=
  [⟨"x", some 1, some 1, some 7, some 1⟩,
   ⟨"y", some 1, some 1, some 7, some 1⟩,
   ⟨"z", some 1, some 2, some 7, some 1⟩]

/-- The shadowed hourly output on the C8 witness records: the TDS mean
4/3 is rounded to 1.33. -/
def outC8 : List MeanRow :=
  [⟨106, some 1, some 1, some (133/100), some 7⟩]

/-- The single row of that output. -/
def rowC8 : MeanRow := ⟨106, some 1, some 1, some (133/100), some 7⟩

/-- The cleaned table of the C8 witness records. -/
def cleanC8 : List Reading :=
  [⟨⟨1970, 1, 5, 10, 0, 0⟩, 1, 1, 7, 1⟩,
   ⟨⟨1970, 1, 5, 10, 0, 0⟩, 1, 1, 7, 1⟩,
   ⟨⟨1970, 1, 5, 10, 0, 0⟩, 1, 2, 7, 1⟩]

/-- C8 witness: the amended theorem applied to the concrete shadowed
hourly output, extracting that its rounded TDS value 1.33 is a fixed
point of 2-decimal rounding. -/
theorem filter_data_hourly_v1_rounded_witness :
    round2 ((133 : ℚ)/100) = (133 : ℚ)/100 :=
  (filter_data_hourly_v1_rounded pC8 recsC8 outC8 rowC8
    (by
      have hpre : preprocess_data pC8 recsC8 = some cleanC8 := by
        norm_num [preprocess_data, cleanTable, parsedRows, recsC8, pC8,
          cleanC8, mkReadings, flowFinal, tdsFinal, phFinal, depthFinal,
          cleanCol, fill0, bfill, ffill, ffillGo, clamp0, clampPH, round2,
          rhe, qfloor]
        intro h
        simp at h
      rw [filter_data_hourly_v1, hpre]
      norm_num [cleanC8, outC8, resampleMean, keysOf, listMin, listMax,
        meanRowAt, bucketOf, posFilter, hourIdx, dayIdx, daysFromCivil, meanQ,
        round2, rhe, qfloor, List.range, List.range.loop, Int.fdiv, Int.emod]
      intro h
      simp at h)
    (by norm_num [outC8, rowC8])).2.2.1 ((133 : ℚ)/100) (by norm_num [rowC8])

/-! Claim C9. -/

/-- C9: one update cycle either leaves the shared table untouched or
fully replaces it with the newly computed table, the latter only when
the new table is nonempty and either the current table is empty or the
new maximum timestamp strictly exceeds the current one; and a cycle
never decreases the maximum timestamp of a nonempty shared table. -/
theorem update_data_cycle_spec (cur : List SumRow) (fetched : Option (List SumRow)) :
    (update_data_cycle cur fetched = cur ∨
      ∃ newDf, fetched = some newDf ∧ update_data_cycle cur fetched = newDf ∧
        newDf ≠ [] ∧ (cur = [] ∨ maxTs cur < maxTs newDf)) ∧
    (cur ≠ [] → maxTs cur ≤ maxTs (update_data_cycle cur fetched)) := by
  cases fetched with
  | none => exact ⟨Or.inl rfl, fun _ => le_refl _⟩
  | some newDf =>
    by_cases hN : newDf = []
    · have hcyc : update_data_cycle cur (some newDf) = cur := by
        simp [update_data_cycle, hN]
      exact ⟨Or.inl hcyc, fun _ => by rw [hcyc]⟩
    · by_cases hC : cur = []
      · have hcyc : update_data_cycle cur (some newDf) = newDf := by
          simp [update_data_cycle, hN, hC]
        exact ⟨Or.inr ⟨newDf, rfl, hcyc, hN, Or.inl hC⟩,
          fun hC2 => absurd hC hC2⟩
      · by_cases hlt : maxTs cur < maxTs newDf
        · have hcyc : update_data_cycle cur (some newDf) = newDf := by
            simp [update_data_cycle, hN, hC, hlt]
          exact ⟨Or.inr ⟨newDf, rfl, hcyc, hN, Or.inr hlt⟩,
            fun _ => by rw [hcyc]; exact le_of_lt hlt⟩
        · have hcyc : update_data_cycle cur (some newDf) = cur := by
            simp [update_data_cycle, hN, hC, hlt]
          exact ⟨Or.inl hcyc, fun _ => by rw [hcyc]⟩

/-- The current shared table for the C9 witness. -/
def curC9 : List SumRow := [⟨1, 0, 0, none, none⟩]

/-- The newly fetched table for the C9 witness, with a later maximum
timestamp. -/
def newC9 : List SumRow := [⟨2, 0, 0, none, none⟩]

/-- C9 witness: the monotonicity part of the theorem applied to a
concrete nonempty shared table and a strictly newer fetched table. -/
theorem update_data_cycle_spec_witness :
    curC9 ≠ [] ∧ maxTs curC9 ≤ maxTs (update_data_cycle curC9 (some newC9)) :=
  ⟨by decide, (update_data_cycle_spec curC9 (some newC9)).2 (by decide)⟩
